import Mathlib

/-!
Verification development for the zap-server certificate pipeline
(`src/routes/certificates.routes.js`).

The JavaScript source is shallowly embedded:
* strings stay `String`, byte buffers become `List Nat`;
* `null`-able string columns become `Option String`, with JS truthiness
  (`x || y`) modelled explicitly;
* the external world (file system, HTTP, image decoding, QR encoding,
  Supabase storage/database outcomes) is a record of oracle functions, so
  every handler is a pure function of its inputs and that record;
* fallible steps return `Except Unit`, and the JS `try/catch` blocks are
  the explicit `match` on that `Except`.
-/

/-- The whitespace characters stripped by JavaScript `String.prototype.trim`
(the common subset: space, tab, LF, CR, VT, FF, NBSP, LS, PS, BOM). -/
def wsChars : List Char :=
  [' ', '\t', '\n', '\r', Char.ofNat 11, Char.ofNat 12, Char.ofNat 160,
   Char.ofNat 8232, Char.ofNat 8233, Char.ofNat 65279]

/-- Is `c` a JS-trimmable whitespace character? -/
def isWsChar (c : Char) : Bool := wsChars.contains c

/-- Strip leading and trailing whitespace from a character list. -/
def trimChars (l : List Char) : List Char :=
  ((l.dropWhile isWsChar).reverse.dropWhile isWsChar).reverse

/-- JavaScript `s.trim()`. -/
def jsTrim (s : String) : String := ⟨trimChars s.data⟩

/-- The reverse-side trim step of `trimChars`. -/
def trimBack (l : List Char) : List Char :=
  (l.reverse.dropWhile isWsChar).reverse

/-- JavaScript `s || d` for strings: the fallback `d` when `s` is empty. -/
def jsOrStr (s d : String) : String := if s = "" then d else s

/-- JavaScript `s || null` for a string: `none` when empty. -/
def strOrNull (s : String) : Option String := if s = "" then none else some s

/-- JS truthiness of a nullable string (`x ? ... : ...` / `x || null`):
`none` and `some ""` are both falsy. -/
def jsOr (o : Option String) : Option String :=
  match o with
  | some s => if s = "" then none else some s
  | none => none

/-- Replace every occurrence of character `c` in `l` by the string `r`
(JS `String.prototype.replace` with a global single-character pattern). -/
def replaceAllC (l : List Char) (c : Char) (r : List Char) : List Char :=
  l.flatMap (fun a => if a = c then r else [a])

/-- The double-quote character. -/
def quotChar : Char := Char.ofNat 34

/-- The apostrophe character. -/
def aposChar : Char := Char.ofNat 39

/-- The `esc` helper of the verify route: sequentially replaces
ampersand, angle brackets, double quote and apostrophe by HTML entities. -/
def esc (s : String) : String :=
  ⟨replaceAllC (replaceAllC (replaceAllC (replaceAllC (replaceAllC
      s.data '&' "&amp;".data)
      '<' "&lt;".data)
      '>' "&gt;".data)
      quotChar "&quot;".data)
      aposChar "&#39;".data⟩

/-- Per-character entity translation; `esc` is proved equal to mapping this
over the input (the sequential replaces never rewrite an entity they
introduced, because ampersands are replaced first). -/
def entChar (c : Char) : List Char :=
  if c = '&' then "&amp;".data
  else if c = '<' then "&lt;".data
  else if c = '>' then "&gt;".data
  else if c = quotChar then "&quot;".data
  else if c = aposChar then "&#39;".data
  else [c]

/-- A character list is HTML-escaped against injection: it contains no raw
angle bracket, double quote or apostrophe, and every ampersand begins one of
the five entities emitted by `esc`. -/
def escAux : List Char → List Char → Bool
  | pending, [] => pending.isEmpty
  | p :: ps, c :: rest => if c = p then escAux ps rest else false
  | [], c :: rest =>
    if c = '&' then
      match rest with
      | [] => false
      | d :: rest2 =>
        if d = 'a' then escAux "mp;".data rest2
        else if d = 'l' then escAux "t;".data rest2
        else if d = 'g' then escAux "t;".data rest2
        else if d = 'q' then escAux "uot;".data rest2
        else if d = '#' then escAux "39;".data rest2
        else false
    else if c = '<' then false
    else if c = '>' then false
    else if c = quotChar then false
    else if c = aposChar then false
    else escAux [] rest

/-- Runs the state machine with nothing pending: every ampersand must open
one of the five entities of `esc`, and no raw special may occur. -/
def escapedOk (l : List Char) : Bool := escAux [] l

/-- Outcome of an HTTP fetch of a URL under a timeout. -/
inductive HttpOutcome where
  | success (bytes : List Nat)
  | httpError
  | netError
  | timedOut
deriving DecidableEq, Repr

/-- The external world the route code interacts with: local files, HTTP,
image decodability (pdfkit `doc.image` throws on undecodable buffers) and
QR-code generation. -/
structure World where
  files : String → Option (List Nat)
  http : String → Nat → HttpOutcome
  validImage : List Nat → Bool
  qrEncode : String → Option (List Nat)

/-- The default `timeoutMs` of `fetchBuffer`. -/
def defaultTimeoutMs : Nat := 8000

/-- Does `url` match `/^https?:\/\//i`?  The case-insensitive match is the
prefix test after lower-casing. -/
def isHttpUrl (url : String) : Bool :=
  "http://".data.isPrefixOf (url.data.map Char.toLower)
    || "https://".data.isPrefixOf (url.data.map Char.toLower)

/-- The body of `fetchBuffer` before its `catch`, instrumented with the
number of HTTP requests issued.  Empty reference: immediate `null`.
Non-URL reference: `fs.readFile` (throws on a missing/unreadable file).
URL: one `fetch`; a non-2xx response returns `null`, a network error or
an abort by the timeout throws. -/
def fetchBufferT (w : World) (url : String) (timeoutMs : Nat) :
    Except Unit (Option (List Nat)) × Nat :=
  if url = "" then (Except.ok none, 0)
  else if ¬ isHttpUrl url then
    (match w.files url with
     | some b => Except.ok (some b)
     | none => Except.error (), 0)
  else
    (match w.http url timeoutMs with
     | HttpOutcome.success b => Except.ok (some b)
     | HttpOutcome.httpError => Except.ok none
     | HttpOutcome.netError => Except.error ()
     | HttpOutcome.timedOut => Except.error (), 1)

/-- `fetchBuffer`: the body wrapped in `try/catch` — every thrown error
becomes `null`. -/
def fetchBuffer (w : World) (url : String) (timeoutMs : Nat) :
    Option (List Nat) :=
  match (fetchBufferT w url timeoutMs).1 with
  | Except.ok v => v
  | Except.error _ => none

/-- One drawing operation of the rendered certificate PDF, in the order the
document composes them. -/
inductive DocItem where
  | logoImage (bytes : List Nat)
  | institutionHeading (s : String)
  | decorLine
  | titleText
  | studentPhoto (bytes : List Nat)
  | nameText (s : String)
  | programLine (s : String)
  | awardLine (s : String)
  | cgpaLine (s : String)
  | issuedLine (s : String)
  | certIdLine (s : String)
  | qrImage (bytes : List Nat)
  | qrCaption
  | signature (label : String)
deriving DecidableEq, Repr

/-- The field payload handed to `renderCertificatePDF`. -/
structure Payload where
  institution_name : String
  full_name : String
  program : String
  certificate : String
  cgpa : String
  image_url : String
  logo_url : String
  certificate_id : String
  verify_url : String
  issue_date : String
deriving DecidableEq, Repr

/-- The top-logo block: skipped when `logo_url` is falsy or the fetch
returns `null`; `doc.image` on an undecodable buffer throws (rejecting the
render promise). -/
def logoPart (w : World) (p : Payload) : Except Unit (List DocItem) :=
  if p.logo_url ≠ "" then
    match fetchBuffer w p.logo_url defaultTimeoutMs with
    | some buf =>
      if w.validImage buf then Except.ok [DocItem.logoImage buf]
      else Except.error ()
    | none => Except.ok []
  else Except.ok []

/-- The circular student-photo block, same skip/throw structure as the
logo block but driven by `image_url`. -/
def photoPart (w : World) (p : Payload) : Except Unit (List DocItem) :=
  if p.image_url ≠ "" then
    match fetchBuffer w p.image_url defaultTimeoutMs with
    | some buf =>
      if w.validImage buf then Except.ok [DocItem.studentPhoto buf]
      else Except.error ()
    | none => Except.ok []
  else Except.ok []

/-- The bottom-right QR block: generated whenever `verify_url` is truthy;
a failing `QRCode.toDataURL` rejects the render. -/
def qrPart (w : World) (p : Payload) : Except Unit (List DocItem) :=
  if p.verify_url ≠ "" then
    match w.qrEncode p.verify_url with
    | some png => Except.ok [DocItem.qrImage png, DocItem.qrCaption]
    | none => Except.error ()
  else Except.ok []

/-- The fixed document layout, with the three optional asset blocks
spliced in at their positions. -/
def docOf (p : Payload) (logoItems photoItems qrItems : List DocItem) :
    List DocItem :=
  logoItems
    ++ [DocItem.institutionHeading (jsOrStr p.institution_name "Institution"),
        DocItem.decorLine, DocItem.titleText]
    ++ photoItems
    ++ [DocItem.nameText (jsOrStr p.full_name "Recipient Name")]
    ++ (if p.program ≠ "" then [DocItem.programLine p.program] else [])
    ++ (if p.certificate ≠ "" then [DocItem.awardLine p.certificate] else [])
    ++ (if p.cgpa ≠ "" then [DocItem.cgpaLine p.cgpa] else [])
    ++ [DocItem.issuedLine p.issue_date, DocItem.certIdLine p.certificate_id]
    ++ qrItems
    ++ [DocItem.signature "Dean", DocItem.signature "Registrar"]

/-- `renderCertificatePDF`: a throw in any block rejects the whole render;
otherwise the composed document is produced. -/
def renderCertificatePDF (w : World) (p : Payload) :
    Except Unit (List DocItem) :=
  match logoPart w p, photoPart w p, qrPart w p with
  | Except.ok l, Except.ok ph, Except.ok q => Except.ok (docOf p l ph q)
  | Except.error e, _, _ => Except.error e
  | _, Except.error e, _ => Except.error e
  | _, _, Except.error e => Except.error e

/-- Did an `Except` computation succeed? -/
def isOkE {ε α : Type} (e : Except ε α) : Bool :=
  match e with
  | Except.ok _ => true
  | Except.error _ => false

/-- A spreadsheet row as produced by `sheet_to_json` with `defval: ""`:
an association list from header name to (stringified) cell value. -/
def Row : Type := List (String × String)

/-- JS `key in row`. -/
def rowHas (r : Row) (k : String) : Bool := r.any (fun p => p.1 == k)

/-- `String(row[k] || "")`: the cell value, with missing cells read as the
empty string. -/
def rowGet (r : Row) (k : String) : String :=
  ((r.find? (fun p => p.1 == k)).map (fun p => p.2)).getD ""

/-- The four required header names of the generate route. -/
def requiredCols : List String := ["Full Name", "Program", "Certificate", "CGPA"]

/-- One persisted certificate metadata row. -/
structure Cert where
  certificate_id : String
  full_name : String
  program : String
  certificate : String
  cgpa : String
  institution_name : String
  image_url : Option String
  logo_url : Option String
  pdf_path : String
  pdf_url : Option String
  verify_url : String
  status : String
  created_by : Option String
  created_at : String
deriving DecidableEq, Repr

/-- Environment of one `POST /certificates/generate` request: the asset
world, configuration, the UUID supply, the storage/database outcomes and
the request timestamp data. -/
structure GenEnv where
  world : World
  publicBase : String
  publicUrlOf : String → String
  uuids : Nat → String
  createdAts : Nat → String
  uploadFails : Nat → Bool
  insertFails : Nat → Bool
  createdBy : Option String
  issueDate : String

/-- The per-row payload assembled by the generate loop (all cell values
coerced to strings and trimmed; the logo reference and institution name
come from the request, not the row). -/
def rowPayload (env : GenEnv) (institutionName logoUrl : String) (i : Nat)
    (row : Row) : Payload :=
  { institution_name := institutionName
    full_name := jsTrim (rowGet row "Full Name")
    program := jsTrim (rowGet row "Program")
    certificate := jsTrim (rowGet row "Certificate")
    cgpa := jsTrim (rowGet row "CGPA")
    image_url := jsTrim (rowGet row "Image Url")
    logo_url := logoUrl
    certificate_id := env.uuids i
    verify_url := env.publicBase ++ "/certificates/verify/" ++ env.uuids i
    issue_date := env.issueDate }

/-- The path-unsafe characters stripped from the recipient name. -/
def badPathChars : List Char :=
  ['/', '\\', ':', '*', '?', quotChar, '<', '>', '|']

/-- `full_name.replace(/[\/\\:*?"<>|]/g, "-")`. -/
def sanitizeName (s : String) : String :=
  ⟨s.data.map (fun c => if badPathChars.contains c then '-' else c)⟩

/-- The storage object path of row `i`:
`certificates/<certificateId>/<safeName>.pdf`, with the literal fallback
`recipient` when the sanitized name is empty. -/
def rowObjectPath (env : GenEnv) (institutionName logoUrl : String) (i : Nat)
    (row : Row) : String :=
  let p := rowPayload env institutionName logoUrl i row
  "certificates/" ++ p.certificate_id ++ "/"
    ++ jsOrStr (sanitizeName p.full_name) "recipient" ++ ".pdf"

/-- The metadata record inserted for row `i` (public bucket, so `pdf_url`
is the storage public URL; empty optional references are stored as null). -/
def insertedCert (env : GenEnv) (institutionName logoUrl : String) (i : Nat)
    (row : Row) : Cert :=
  let p := rowPayload env institutionName logoUrl i row
  let objectPath := rowObjectPath env institutionName logoUrl i row
  { certificate_id := p.certificate_id
    full_name := p.full_name
    program := p.program
    certificate := p.certificate
    cgpa := p.cgpa
    institution_name := p.institution_name
    image_url := strOrNull p.image_url
    logo_url := strOrNull p.logo_url
    pdf_path := objectPath
    pdf_url := some (env.publicUrlOf objectPath)
    verify_url := p.verify_url
    status := "valid"
    created_by := env.createdBy
    created_at := env.createdAts i }

/-- Does row `i` get through render, upload and metadata insert? -/
def rowOk (env : GenEnv) (institutionName logoUrl : String) (i : Nat)
    (row : Row) : Bool :=
  isOkE (renderCertificatePDF env.world (rowPayload env institutionName logoUrl i row))
    && !env.uploadFails i && !env.insertFails i

/-- The observable side effects of a generate request: storage uploads and
metadata inserts that committed, in order. -/
structure Effects where
  uploads : List String
  inserts : List Cert
deriving DecidableEq, Repr

/-- Result of the generate route: a 400 validation error, a 200 JSON
`{count, items}`, or the 500 produced by the catch block. -/
inductive GenResult where
  | badRequest (msg : String)
  | ok (count : Nat) (items : List Cert)
  | serverError (msg : String)
deriving DecidableEq, Repr

/-- The `for (const row of rows)` loop from row index `i` on.  A render
throw, upload error or insert error throws out of the loop; effects
committed before the throw remain. -/
def processRows (env : GenEnv) (institutionName logoUrl : String) :
    Nat → List Row → Except Unit (List Cert) × Effects
  | _, [] => (Except.ok [], ⟨[], []⟩)
  | i, row :: rest =>
    let payload := rowPayload env institutionName logoUrl i row
    match renderCertificatePDF env.world payload with
    | Except.error _ => (Except.error (), ⟨[], []⟩)
    | Except.ok _ =>
      let objectPath := rowObjectPath env institutionName logoUrl i row
      if env.uploadFails i then (Except.error (), ⟨[], []⟩)
      else if env.insertFails i then (Except.error (), ⟨[objectPath], []⟩)
      else
        let c := insertedCert env institutionName logoUrl i row
        let r := processRows env institutionName logoUrl (i + 1) rest
        (match r.1 with
         | Except.ok l => Except.ok (c :: l)
         | Except.error e => Except.error e,
         ⟨objectPath :: r.2.uploads, c :: r.2.inserts⟩)

/-- The 400 message for missing columns:
`Missing required columns: ${required.join(", ")}`. -/
def missingColsMsg : String :=
  "Missing required columns: " ++ String.intercalate ", " requiredCols

/-- The `POST /certificates/generate` handler: trims the request fields,
validates institution name, file presence, non-empty sheet and required
columns (against the first row's keys), then drives the row loop; a thrown
row error is caught as a 500 with no partial payload. -/
def generateHandler (env : GenEnv) (institutionNameRaw logoUrlRaw : String)
    (filePresent : Bool) (rows : List Row) : GenResult × Effects :=
  let institutionName := jsTrim institutionNameRaw
  let logoUrl := jsTrim logoUrlRaw
  if institutionName = "" then
    (GenResult.badRequest "institution_name is required", ⟨[], []⟩)
  else if ¬ filePresent then
    (GenResult.badRequest "Excel file (file) is required", ⟨[], []⟩)
  else
    match rows with
    | [] => (GenResult.badRequest "No rows in Excel", ⟨[], []⟩)
    | r0 :: _ =>
      if ¬ (requiredCols.all (fun c => rowHas r0 c)) then
        (GenResult.badRequest missingColsMsg, ⟨[], []⟩)
      else
        let r := processRows env institutionName logoUrl 0 rows
        match r.1 with
        | Except.ok items => (GenResult.ok items.length items, r.2)
        | Except.error _ => (GenResult.serverError "Generation failed", r.2)


/-- One fragment of an HTML response assembled from a template literal:
either a fixed template chunk or an interpolated value. -/
inductive Piece where
  | lit (s : String)
  | dyn (s : String)
deriving DecidableEq, Repr

/-- The metadata store, keyed by `certificate_id`. -/
structure Db where
  certs : List Cert

/-- `.eq("certificate_id", code).single()`: the record whose id equals the
code exactly; `none` covers both the no-row error and a null row. -/
def lookupCert (db : Db) (code : String) : Option Cert :=
  db.certs.find? (fun c => c.certificate_id == code)

/-- Environment of the verify route: signed-URL generation for a storage
path (`none` when signing fails) and the locale date formatter applied to
`created_at`. -/
structure VerifyEnv where
  sign : String → Option String
  fmtDate : String → String

/-- The download link resolution: the stored public `pdf_url` if truthy,
else a 60-second signed URL derived from `pdf_path` (skipped when
`pdf_path` is falsy); `none` when neither resolves. -/
def resolveDownload (env : VerifyEnv) (cert : Cert) : Option String :=
  match jsOr cert.pdf_url with
  | some u => some u
  | none =>
    if cert.pdf_path ≠ "" then jsOr (env.sign cert.pdf_path)
    else none

/-- The not-found page (style block elided; no interpolation occurs in it):
echoes the escaped requested code. -/
def notFoundPieces (code : String) : List Piece :=
  [Piece.lit "<!doctype html>\n<html lang=\"en\">\n<head>\n<meta charset=\"utf-8\"><meta name=\"viewport\" content=\"width=device-width,initial-scale=1\">\n<title>Certificate not found</title>\n</head>\n<body>\n<div class=\"wrap\">\n<div class=\"card\">\n<h1>Certificate not found</h1>\n<p class=\"muted\">We couldn\x27t find a certificate with code:</p>\n<p><span class=\"code\">",
   Piece.dyn (esc code),
   Piece.lit "</span></p>\n</div>\n</div>\n</body>\n</html>"]

/-- The logo block of the found page: present only for a truthy stored
`logo_url` (escaped into the `img src` attribute). -/
def logoSection (logo : Option String) : List Piece :=
  match jsOr logo with
  | some u =>
    [Piece.lit "<div class=\"logo\"><img src=\"", Piece.dyn (esc u),
     Piece.lit "\" alt=\"Logo\" /></div>"]
  | none => [Piece.lit ""]

/-- The `— program` clause of the subtitle, present only for a non-empty
program. -/
def programSub (program : String) : List Piece :=
  if program ≠ "" then [Piece.lit " — ", Piece.dyn (esc program)]
  else [Piece.lit ""]

/-- The literal markup of the disabled download action. -/
def pdfUnavailableLit : String :=
  "<span class=\"btn ghost\" aria-disabled=\"true\">PDF unavailable</span>"

/-- The download action: an anchor whose `href` is the resolved URL
(inserted verbatim, not escaped, as in the source), or the literal
disabled span when no URL resolved. -/
def downloadSection (downloadUrl : Option String) : List Piece :=
  match downloadUrl with
  | some u =>
    [Piece.lit "<a class=\"btn primary\" href=\"", Piece.dyn u,
     Piece.lit "\" target=\"_blank\" rel=\"noopener\">Download PDF</a>"]
  | none => [Piece.lit pdfUnavailableLit]

/-- The found (200) page, style block and copy-button script elided; every
record field is interpolated through `esc`, the resolved download URL is
interpolated raw into the anchor and the fixed status text is `Valid`. -/
def foundPieces (cert : Cert) (downloadUrl : Option String)
    (issuedStr : String) : List Piece :=
  [Piece.lit "<!doctype html>\n<html lang=\"en\">\n<head>\n<meta charset=\"utf-8\"><meta name=\"viewport\" content=\"width=device-width,initial-scale=1\">\n<title>Certificate Verified · ",
   Piece.dyn (esc cert.full_name),
   Piece.lit "</title>\n</head>\n<body>\n<div class=\"wrap\">\n<div class=\"card\">\n<div class=\"bar\">\n"]
  ++ logoSection cert.logo_url
  ++ [Piece.lit "\n<div>\n<div class=\"brand\">",
      Piece.dyn (esc cert.institution_name),
      Piece.lit "</div>\n<div>Official certificate verification</div>\n</div>\n</div>\n<div class=\"content\">\n<div class=\"titleRow\">\n<span class=\"badge\"><span class=\"okdot\"></span> Verified</span>\n<h1 class=\"title\">Certificate of ",
      Piece.dyn (esc cert.certificate),
      Piece.lit "</h1>\n</div>\n<p class=\"sub\">This certificate belongs to <strong>",
      Piece.dyn (esc cert.full_name),
      Piece.lit "</strong>"]
  ++ programSub cert.program
  ++ [Piece.lit ".</p>\n<div class=\"grid\">\n<div class=\"item\">\n<span class=\"label\">Student</span>\n<span class=\"value\">",
      Piece.dyn (esc cert.full_name),
      Piece.lit "</span>\n</div>\n<div class=\"item\">\n<span class=\"label\">Program</span>\n<span class=\"value\">",
      Piece.dyn (esc (jsOrStr cert.program "—")),
      Piece.lit "</span>\n</div>\n<div class=\"item\">\n<span class=\"label\">CGPA</span>\n<span class=\"value\">",
      Piece.dyn (esc (jsOrStr cert.cgpa "—")),
      Piece.lit "</span>\n</div>\n<div class=\"item\">\n<span class=\"label\">Issued</span>\n<span class=\"value\">",
      Piece.dyn (esc issuedStr),
      Piece.lit "</span>\n</div>\n</div>\n<div class=\"actions\">\n"]
  ++ downloadSection downloadUrl
  ++ [Piece.lit "\n<button class=\"btn ghost\" id=\"copyBtn\" type=\"button\">Copy Code</button>\n</div>\n</div>\n<div class=\"footer\">\n<div>Certificate Code: <span class=\"code\" id=\"codeEl\">",
      Piece.dyn (esc cert.certificate_id),
      Piece.lit "</span></div>\n<div>Status: <strong>Valid</strong></div>\n</div>\n</div>\n</div>\n</body>\n</html>"]

/-- Response of the public verify route (the 500 branch of its catch block
is reachable only through infrastructure exceptions outside this model). -/
inductive VerifyResponse where
  | notFound (html : List Piece)
  | found (html : List Piece)
deriving DecidableEq, Repr

/-- The HTTP status of a verify response. -/
def statusCode : VerifyResponse → Nat
  | VerifyResponse.notFound _ => 404
  | VerifyResponse.found _ => 200

/-- `GET /certificates/verify/:certificateId`: trims the code, looks it up
exactly; a lookup miss (including the `.single()` error result) renders the
not-found page, a hit renders the found page with the resolved download
URL and the locale-formatted issue date. -/
def verifyHandler (env : VerifyEnv) (db : Db) (raw : String) :
    VerifyResponse :=
  let code := jsTrim raw
  match lookupCert db code with
  | none => VerifyResponse.notFound (notFoundPieces code)
  | some cert =>
    VerifyResponse.found
      (foundPieces cert (resolveDownload env cert) (env.fmtDate cert.created_at))

/-! ### Concrete sample instances used to evaluate the model -/

/-- A world with no local files, an unreachable network, decodable images
and a stub QR encoder. -/
def sampleWorld : World :=
  { files := fun _ => none
    http := fun _ _ => HttpOutcome.netError
    validImage := fun _ => true
    qrEncode := fun _ => some [7] }

/-- A request environment in which every storage and database call
succeeds. -/
def sampleEnv : GenEnv :=
  { world := sampleWorld
    publicBase := "https://zap-server-z2ra.onrender.com"
    publicUrlOf := fun p => "https://cdn.example/" ++ p
    uuids := fun i => "uuid-" ++ toString i
    createdAts := fun i => "2024-06-01T00:00:0" ++ toString i ++ "Z"
    uploadFails := fun _ => false
    insertFails := fun _ => false
    createdBy := some "admin-1"
    issueDate := "2024-06-01" }

/-- Like `sampleEnv` but the metadata insert of row 1 fails. -/
def sampleEnvInsertFail : GenEnv :=
  { sampleEnv with insertFails := fun i => i == 1 }

/-- A complete spreadsheet row. -/
def sampleRow1 : Row :=
  [("Full Name", "Ada Lovelace"), ("Program", "Mathematics"),
   ("Certificate", "BSc"), ("CGPA", "4.9"), ("Image Url", "")]

/-- A second row without the optional image column. -/
def sampleRow2 : Row :=
  [("Full Name", "Alan Turing"), ("Program", "CS"),
   ("Certificate", "MSc"), ("CGPA", "4.8")]

/-- A row whose four required columns are present but all empty. -/
def emptyNameRow : Row :=
  [("Full Name", ""), ("Program", ""), ("Certificate", ""), ("CGPA", "")]

/-- A row missing the CGPA column. -/
def noCgpaRow : Row :=
  [("Full Name", "Grace Hopper"), ("Program", "CS"), ("Certificate", "PhD")]

/-- A verify-route environment whose signer succeeds. -/
def sampleVerifyEnv : VerifyEnv :=
  { sign := fun p => some ("https://signed.example/" ++ p)
    fmtDate := fun s => "June 1, 2024 [" ++ s ++ "]" }

/-- The record row 0 of `sampleRow1` produces under `sampleEnv`. -/
def sampleCert : Cert := insertedCert sampleEnv "Inst" "" 0 sampleRow1

/-- A metadata store holding only `sampleCert`. -/
def sampleDb : Db := { certs := [sampleCert] }

/-- A payload with no logo, no photo and an empty institution name. -/
def sampleP7 : Payload :=
  { institution_name := ""
    full_name := "Ada Lovelace"
    program := ""
    certificate := ""
    cgpa := ""
    image_url := ""
    logo_url := ""
    certificate_id := "cid-1"
    verify_url := "https://zap.example/certificates/verify/cid-1"
    issue_date := "2024-06-01" }

/-! ### The escaper -/

theorem replaceAllC_append (l1 l2 : List Char) (c : Char) (r : List Char) :
    replaceAllC (l1 ++ l2) c r = replaceAllC l1 c r ++ replaceAllC l2 c r :=
  List.flatMap_append l1 l2 _

/-- The chained replaces act on a single character as `entChar`. -/
theorem esc_chain_single (a : Char) :
    replaceAllC (replaceAllC (replaceAllC (replaceAllC (replaceAllC
      [a] '&' "&amp;".data) '<' "&lt;".data) '>' "&gt;".data)
      quotChar "&quot;".data) aposChar "&#39;".data = entChar a := by
  by_cases h1 : a = '&'
  · subst h1; rfl
  by_cases h2 : a = '<'
  · subst h2; rfl
  by_cases h3 : a = '>'
  · subst h3; rfl
  by_cases h4 : a = quotChar
  · subst h4; rfl
  by_cases h5 : a = aposChar
  · subst h5; rfl
  simp [replaceAllC, entChar, h1, h2, h3, h4, h5]

/-- The chained replaces are the per-character entity map. -/
theorem esc_chain_eq (l : List Char) :
    replaceAllC (replaceAllC (replaceAllC (replaceAllC (replaceAllC
      l '&' "&amp;".data) '<' "&lt;".data) '>' "&gt;".data)
      quotChar "&quot;".data) aposChar "&#39;".data = l.flatMap entChar := by
  induction l with
  | nil => rfl
  | cons a l ih =>
    have hsplit : (a :: l) = [a] ++ l := rfl
    rw [hsplit, replaceAllC_append, replaceAllC_append, replaceAllC_append,
      replaceAllC_append, replaceAllC_append, esc_chain_single, ih,
      List.flatMap_append]
    simp [replaceAllC]

theorem esc_data (s : String) : (esc s).data = s.data.flatMap entChar := by
  simpa [esc] using esc_chain_eq s.data

theorem escapedOk_cons_plain (a : Char) (l : List Char) (h1 : ¬ a = '&')
    (h2 : ¬ a = '<') (h3 : ¬ a = '>') (h4 : ¬ a = quotChar)
    (h5 : ¬ a = aposChar) : escapedOk (a :: l) = escapedOk l := by
  simp only [escapedOk]
  rw [escAux.eq_def]
  simp [h1, h2, h3, h4, h5]

/-- Output of `esc` passes the escaping check: no raw special characters,
every ampersand opening an entity. -/
theorem escapedOk_esc (s : String) : escapedOk (esc s).data = true := by
  rw [esc_data]
  induction s.data with
  | nil => rfl
  | cons a l ih =>
    rw [List.flatMap_cons]
    by_cases h1 : a = '&'
    · subst h1; exact ih
    by_cases h2 : a = '<'
    · subst h2; exact ih
    by_cases h3 : a = '>'
    · subst h3; exact ih
    by_cases h4 : a = quotChar
    · subst h4; exact ih
    by_cases h5 : a = aposChar
    · subst h5; exact ih
    · rw [show entChar a = [a] from by simp [entChar, h1, h2, h3, h4, h5]]
      rw [List.singleton_append, escapedOk_cons_plain a _ h1 h2 h3 h4 h5]
      exact ih

/-! ### Trimming -/

theorem dropWhile_ws_append (p l : List Char)
    (hp : ∀ c ∈ p, isWsChar c = true) :
    (p ++ l).dropWhile isWsChar = l.dropWhile isWsChar := by
  induction p with
  | nil => simp
  | cons a p ih =>
    rw [List.cons_append,
      List.dropWhile_cons_of_pos (hp a (List.mem_cons_self a p))]
    exact ih fun c hc => hp c (List.mem_cons_of_mem _ hc)

theorem trimChars_eq_trimBack (l : List Char) :
    trimChars l = trimBack (l.dropWhile isWsChar) := rfl

theorem trimBack_append_ws (l post : List Char)
    (hq : ∀ c ∈ post, isWsChar c = true) :
    trimBack (l ++ post) = trimBack l := by
  unfold trimBack
  rw [List.reverse_append,
    dropWhile_ws_append post.reverse l.reverse
      (fun c hc => hq c (List.mem_reverse.mp hc))]

theorem trimBack_dropWhile_append_ws (s post : List Char)
    (h : ∀ c ∈ post, isWsChar c = true) :
    trimBack ((s ++ post).dropWhile isWsChar)
      = trimBack (s.dropWhile isWsChar) := by
  induction s with
  | nil =>
    have h1 : post.dropWhile isWsChar = [] := by
      have := dropWhile_ws_append post [] h
      simpa using this
    simp [h1]
  | cons a s ih =>
    by_cases ha : isWsChar a
    · rw [List.cons_append, List.dropWhile_cons_of_pos ha,
        List.dropWhile_cons_of_pos ha]
      exact ih
    · rw [List.cons_append,
        List.dropWhile_cons_of_neg (by simpa using ha),
        List.dropWhile_cons_of_neg (by simpa using ha), ← List.cons_append]
      exact trimBack_append_ws (a :: s) post h

/-- Surrounding whitespace does not change the trim. -/
theorem trimChars_wrap (pre s post : List Char)
    (hpre : ∀ c ∈ pre, isWsChar c = true)
    (hpost : ∀ c ∈ post, isWsChar c = true) :
    trimChars (pre ++ s ++ post) = trimChars s := by
  rw [trimChars_eq_trimBack, trimChars_eq_trimBack, List.append_assoc,
    dropWhile_ws_append pre (s ++ post) hpre]
  exact trimBack_dropWhile_append_ws s post hpost

/-- Every list is whitespace, its trim, then whitespace. -/
theorem trimChars_decomp (l : List Char) :
    ∃ p q, (∀ c ∈ p, isWsChar c = true) ∧ (∀ c ∈ q, isWsChar c = true)
      ∧ l = p ++ trimChars l ++ q := by
  refine ⟨l.takeWhile isWsChar,
    ((l.dropWhile isWsChar).reverse.takeWhile isWsChar).reverse, ?_, ?_, ?_⟩
  · exact fun c hc => List.mem_takeWhile_imp hc
  · exact fun c hc => List.mem_takeWhile_imp (List.mem_reverse.mp hc)
  · rw [trimChars_eq_trimBack]
    conv_lhs => rw [← List.takeWhile_append_dropWhile isWsChar l]
    rw [List.append_assoc]
    congr 1
    unfold trimBack
    conv_lhs =>
      rw [← List.reverse_reverse (l.dropWhile isWsChar),
        ← List.takeWhile_append_dropWhile isWsChar
          (l.dropWhile isWsChar).reverse]
    rw [List.reverse_append]

theorem trimChars_idem (l : List Char) :
    trimChars (trimChars l) = trimChars l := by
  obtain ⟨p, q, hp, hq, hl⟩ := trimChars_decomp l
  calc trimChars (trimChars l)
      = trimChars (p ++ trimChars l ++ q) := (trimChars_wrap p _ q hp hq).symm
    _ = trimChars l := by rw [← hl]

theorem jsTrim_idem (s : String) : jsTrim (jsTrim s) = jsTrim s :=
  congrArg String.mk (trimChars_idem s.data)

/-- JS `trim` discards surrounding whitespace entirely. -/
theorem jsTrim_wrap (pre s post : String)
    (hpre : ∀ c ∈ pre.data, isWsChar c = true)
    (hpost : ∀ c ∈ post.data, isWsChar c = true) :
    jsTrim (pre ++ s ++ post) = jsTrim s := by
  unfold jsTrim
  rw [String.data_append, String.data_append]
  exact congrArg String.mk (trimChars_wrap pre.data s.data post.data hpre hpost)

/-! ### The generate loop -/

/-- When every remaining row clears render, upload and insert, the loop
returns the records of the rows in order, and commits exactly one upload
and one insert per row, in order. -/
theorem processRows_success (env : GenEnv) (a b : String) (rows : List Row)
    (n : Nat) (h : ∀ p ∈ rows.enumFrom n, rowOk env a b p.1 p.2 = true) :
    processRows env a b n rows =
      (Except.ok ((rows.enumFrom n).map fun p => insertedCert env a b p.1 p.2),
       ⟨(rows.enumFrom n).map fun p => rowObjectPath env a b p.1 p.2,
        (rows.enumFrom n).map fun p => insertedCert env a b p.1 p.2⟩) := by
  induction rows generalizing n with
  | nil => rfl
  | cons row rest ih =>
    have hrow : rowOk env a b n row = true :=
      h (n, row) (by rw [List.enumFrom_cons]; exact List.mem_cons_self _ _)
    have hrest : ∀ p ∈ rest.enumFrom (n + 1), rowOk env a b p.1 p.2 = true :=
      fun p hp => h p (by rw [List.enumFrom_cons]; exact List.mem_cons_of_mem _ hp)
    unfold rowOk at hrow
    simp only [Bool.and_eq_true, Bool.not_eq_true'] at hrow
    obtain ⟨⟨hr, hu⟩, hi⟩ := hrow
    simp only [processRows]
    cases hrender : renderCertificatePDF env.world (rowPayload env a b n row) with
    | error e => rw [hrender] at hr; simp [isOkE] at hr
    | ok d =>
      simp [hu, hi, ih (n + 1) hrest, List.enumFrom_cons]

/-- When the loop returns a success it processed every row: the items are
exactly the records of the rows in order, and the committed effects match
them one-to-one. -/
theorem processRows_ok_inv (env : GenEnv) (a b : String) (rows : List Row)
    (n : Nat) (l : List Cert) (eff : Effects)
    (h : processRows env a b n rows = (Except.ok l, eff)) :
    l = (rows.enumFrom n).map (fun p => insertedCert env a b p.1 p.2)
      ∧ eff = ⟨(rows.enumFrom n).map (fun p => rowObjectPath env a b p.1 p.2), l⟩ := by
  induction rows generalizing n l eff with
  | nil =>
    simp only [processRows, Prod.mk.injEq, Except.ok.injEq] at h
    obtain ⟨h1, h2⟩ := h
    subst h1
    exact ⟨rfl, h2.symm⟩
  | cons row rest ih =>
    simp only [processRows] at h
    cases hrender : renderCertificatePDF env.world (rowPayload env a b n row) with
    | error e => rw [hrender] at h; simp at h
    | ok d =>
      rw [hrender] at h
      by_cases hu : env.uploadFails n
      · simp [hu] at h
      by_cases hi : env.insertFails n
      · simp [hu, hi] at h
      simp only [hu, hi, if_false, Bool.false_eq_true] at h
      cases hr1 : (processRows env a b (n + 1) rest).1 with
      | error e => rw [hr1] at h; simp at h
      | ok l2 =>
        rw [hr1] at h
        simp only [Prod.mk.injEq, Except.ok.injEq] at h
        obtain ⟨hl, heff⟩ := h
        have hpr : processRows env a b (n + 1) rest
            = (Except.ok l2, (processRows env a b (n + 1) rest).2) :=
          Prod.ext hr1 rfl
        obtain ⟨ihl, iheff⟩ := ih (n + 1) l2 _ hpr
        subst hl
        constructor
        · rw [List.enumFrom_cons, List.map_cons, ihl]
        · rw [← heff, iheff, List.enumFrom_cons, List.map_cons]

/-- When the rows before `rk` succeed and `rk` is the first row to fail
(render, upload or insert), the loop throws: rows after `rk` are never
reached, the inserts committed are exactly those of the preceding rows,
and at most the failing row's upload is additionally committed (when its
insert was the failing step). -/
theorem processRows_failure (env : GenEnv) (a b : String)
    (pre : List Row) (rk : Row) (post : List Row) (n : Nat)
    (hpre : ∀ p ∈ pre.enumFrom n, rowOk env a b p.1 p.2 = true)
    (hfail : rowOk env a b (n + pre.length) rk = false) :
    processRows env a b n (pre ++ rk :: post) =
      (Except.error (),
       ⟨(pre.enumFrom n).map (fun p => rowObjectPath env a b p.1 p.2)
          ++ (if isOkE (renderCertificatePDF env.world
                  (rowPayload env a b (n + pre.length) rk))
                && !env.uploadFails (n + pre.length)
              then [rowObjectPath env a b (n + pre.length) rk] else []),
        (pre.enumFrom n).map fun p => insertedCert env a b p.1 p.2⟩) := by
  induction pre generalizing n with
  | nil =>
    simp only [List.nil_append, List.length_nil, Nat.add_zero] at hfail ⊢
    simp only [processRows]
    unfold rowOk at hfail
    cases hrender : renderCertificatePDF env.world (rowPayload env a b n rk) with
    | error e => simp [isOkE]
    | ok d =>
      rw [hrender] at hfail
      simp only [isOkE, Bool.true_and] at hfail
      by_cases hu : env.uploadFails n
      · simp [hu, isOkE]
      · have hu2 : env.uploadFails n = false := by simpa using hu
        have hi : env.insertFails n = true := by
          rw [hu2] at hfail
          simpa using hfail
        simp [hu2, hi, isOkE]
  | cons row pre ih =>
    have hrow : rowOk env a b n row = true :=
      hpre (n, row) (by rw [List.enumFrom_cons]; exact List.mem_cons_self _ _)
    have hrest : ∀ p ∈ pre.enumFrom (n + 1), rowOk env a b p.1 p.2 = true :=
      fun p hp => hpre p (by rw [List.enumFrom_cons]; exact List.mem_cons_of_mem _ hp)
    have hidx : n + (row :: pre).length = (n + 1) + pre.length := by
      simp [List.length_cons]; omega
    rw [hidx] at hfail
    unfold rowOk at hrow
    simp only [Bool.and_eq_true, Bool.not_eq_true'] at hrow
    obtain ⟨⟨hr, hu⟩, hi⟩ := hrow
    rw [List.cons_append]
    simp only [processRows]
    cases hrender : renderCertificatePDF env.world (rowPayload env a b n row) with
    | error e => rw [hrender] at hr; simp [isOkE] at hr
    | ok d =>
      rw [hidx]
      simp [hu, hi, ih (n + 1) hrest hfail, List.enumFrom_cons]

/-! ### The verify route -/

theorem mem_notFoundPieces_code (code : String) :
    Piece.dyn (esc code) ∈ notFoundPieces code := by
  simp [notFoundPieces]

theorem mem_foundPieces_fullname (c : Cert) (d : Option String) (i : String) :
    Piece.dyn (esc c.full_name) ∈ foundPieces c d i := by
  simp [foundPieces]

theorem mem_foundPieces_institution (c : Cert) (d : Option String) (i : String) :
    Piece.dyn (esc c.institution_name) ∈ foundPieces c d i := by
  simp [foundPieces]

theorem mem_foundPieces_certificate (c : Cert) (d : Option String) (i : String) :
    Piece.dyn (esc c.certificate) ∈ foundPieces c d i := by
  simp [foundPieces]

theorem mem_foundPieces_certId (c : Cert) (d : Option String) (i : String) :
    Piece.dyn (esc c.certificate_id) ∈ foundPieces c d i := by
  simp [foundPieces]

theorem mem_foundPieces_programDash (c : Cert) (d : Option String) (i : String) :
    Piece.dyn (esc (jsOrStr c.program "—")) ∈ foundPieces c d i := by
  simp [foundPieces]

theorem mem_foundPieces_program (c : Cert) (d : Option String) (i : String)
    (h : c.program ≠ "") : Piece.dyn (esc c.program) ∈ foundPieces c d i := by
  have : jsOrStr c.program "—" = c.program := by simp [jsOrStr, h]
  have h2 := mem_foundPieces_programDash c d i
  rw [this] at h2
  exact h2

/-- Unfolding the verify handler on a lookup miss. -/
theorem verifyHandler_notFound (env : VerifyEnv) (db : Db) (raw : String)
    (h : lookupCert db (jsTrim raw) = none) :
    verifyHandler env db raw
      = VerifyResponse.notFound (notFoundPieces (jsTrim raw)) := by
  simp [verifyHandler, h]

/-- Unfolding the verify handler on a lookup hit. -/
theorem verifyHandler_found (env : VerifyEnv) (db : Db) (raw : String)
    (c : Cert) (h : lookupCert db (jsTrim raw) = some c) :
    verifyHandler env db raw
      = VerifyResponse.found
          (foundPieces c (resolveDownload env c) (env.fmtDate c.created_at)) := by
  simp [verifyHandler, h]

/-- The verify handler only depends on the trim of its argument. -/
theorem verifyHandler_trim_congr (env : VerifyEnv) (db : Db) (r1 r2 : String)
    (h : jsTrim r1 = jsTrim r2) :
    verifyHandler env db r1 = verifyHandler env db r2 := by
  unfold verifyHandler
  rw [h]

/-! ### The generate handler -/

/-- After the four validations pass, the generate handler is the loop plus
the translation of its outcome into a response. -/
theorem generateHandler_loop (env : GenEnv) (instRaw logoRaw : String)
    (r0 : Row) (rest : List Row) (hinst : jsTrim instRaw ≠ "")
    (hcols : ∀ c ∈ requiredCols, rowHas r0 c = true) :
    generateHandler env instRaw logoRaw true (r0 :: rest)
      = (match (processRows env (jsTrim instRaw) (jsTrim logoRaw) 0 (r0 :: rest)).1 with
         | Except.ok items => GenResult.ok items.length items
         | Except.error _ => GenResult.serverError "Generation failed",
         (processRows env (jsTrim instRaw) (jsTrim logoRaw) 0 (r0 :: rest)).2) := by
  have hall : requiredCols.all (fun c => rowHas r0 c) = true :=
    List.all_eq_true.mpr hcols
  simp only [generateHandler, hinst, hall]
  simp
  cases (processRows env (jsTrim instRaw) (jsTrim logoRaw) 0 (r0 :: rest)).1 <;> simp

/-- A success response of the generate handler determines its items: they
are exactly the records of the parsed rows, in spreadsheet order. -/
theorem generateHandler_ok_inv (env : GenEnv) (instRaw logoRaw : String)
    (filePresent : Bool) (rows : List Row) (n : Nat) (items : List Cert)
    (eff : Effects)
    (h : generateHandler env instRaw logoRaw filePresent rows
          = (GenResult.ok n items, eff)) :
    items = rows.enum.map
      (fun p => insertedCert env (jsTrim instRaw) (jsTrim logoRaw) p.1 p.2) := by
  by_cases h1 : jsTrim instRaw = ""
  · simp [generateHandler, h1] at h
  by_cases h2 : filePresent
  · cases rows with
    | nil => simp [generateHandler, h1, h2] at h
    | cons r0 rest =>
      by_cases h3 : requiredCols.all (fun c => rowHas r0 c) = true
      · simp only [generateHandler, h1, h2, h3, if_false, if_true,
          not_true, not_false_iff, ite_false, ite_true] at h
        cases hres : (processRows env (jsTrim instRaw) (jsTrim logoRaw) 0
            (r0 :: rest)).1 with
        | error e =>
          rw [hres] at h
          simp at h
        | ok l =>
          rw [hres] at h
          simp only [Prod.mk.injEq, GenResult.ok.injEq] at h
          obtain ⟨⟨hn, hitems⟩, heff⟩ := h
          have hpr : processRows env (jsTrim instRaw) (jsTrim logoRaw) 0
              (r0 :: rest) = (Except.ok l,
                (processRows env (jsTrim instRaw) (jsTrim logoRaw) 0
                  (r0 :: rest)).2) := Prod.ext hres rfl
          obtain ⟨hl, _⟩ := processRows_ok_inv env (jsTrim instRaw)
            (jsTrim logoRaw) (r0 :: rest) 0 l _ hpr
          rw [← hitems, hl]
          rfl
      · simp [generateHandler, h1, h2, h3] at h
  · simp [generateHandler, h1, h2] at h

/-! ### Claims -/

/-- C6: for every reference string and timeout, the asset fetch never
raises to its caller (the catch turns every internal throw into `null`);
an empty reference yields absent immediately with no request; an http(s)
reference issues at most one fetch whose non-2xx response, network error
or timeout all yield absent; any other reference is read as a local file
where a missing/unreadable file also yields absent; and the default
timeout is 8000 ms. -/
theorem spec_C6 (w : World) (url : String) (t : Nat) :
    (isOkE (fetchBufferT w url t).1 = false → fetchBuffer w url t = none)
    ∧ (url = "" → fetchBuffer w url t = none ∧ (fetchBufferT w url t).2 = 0)
    ∧ (isHttpUrl url = true →
        (∀ b, w.http url t = HttpOutcome.success b →
          fetchBuffer w url t = some b)
        ∧ (w.http url t = HttpOutcome.httpError → fetchBuffer w url t = none)
        ∧ (w.http url t = HttpOutcome.netError → fetchBuffer w url t = none)
        ∧ (w.http url t = HttpOutcome.timedOut → fetchBuffer w url t = none))
    ∧ (url ≠ "" → isHttpUrl url = false →
        (w.files url = none → fetchBuffer w url t = none)
        ∧ (∀ b, w.files url = some b → fetchBuffer w url t = some b))
    ∧ (fetchBufferT w url t).2 ≤ 1
    ∧ defaultTimeoutMs = 8000 := by
  refine ⟨?_, ?_, ?_, ?_, ?_, rfl⟩
  · intro h
    unfold fetchBuffer
    cases hE : (fetchBufferT w url t).1 with
    | ok v => rw [hE] at h; simp [isOkE] at h
    | error e => simp
  · intro h
    subst h
    exact ⟨rfl, rfl⟩
  · intro hh
    have hne : url ≠ "" := by
      intro h
      rw [h] at hh
      exact absurd hh (by decide)
    refine ⟨?_, ?_, ?_, ?_⟩
    · intro b hb
      simp [fetchBuffer, fetchBufferT, hne, hh, hb]
    · intro hb
      simp [fetchBuffer, fetchBufferT, hne, hh, hb]
    · intro hb
      simp [fetchBuffer, fetchBufferT, hne, hh, hb]
    · intro hb
      simp [fetchBuffer, fetchBufferT, hne, hh, hb]
  · intro hne hh
    constructor
    · intro hb
      simp [fetchBuffer, fetchBufferT, hne, hh, hb]
    · intro b hb
      simp [fetchBuffer, fetchBufferT, hne, hh, hb]
  · unfold fetchBufferT
    split_ifs <;> simp

theorem spec_C6_witness :
    fetchBuffer sampleWorld "http://assets.example/logo.png" 8000 = none
    ∧ fetchBuffer sampleWorld "/tmp/logo.png" 8000 = none
    ∧ fetchBuffer sampleWorld "" 8000 = none := by
  refine ⟨?_, ?_, ?_⟩
  · exact ((spec_C6 sampleWorld "http://assets.example/logo.png" 8000).2.2.1
      (by decide)).2.2.1 rfl
  · exact ((spec_C6 sampleWorld "/tmp/logo.png" 8000).2.2.2.1
      (by decide) (by decide)).1 rfl
  · exact ((spec_C6 sampleWorld "" 8000).2.1 rfl).1

/-- C7: when the logo and image references are empty or their fetches
return absent, the render still succeeds (provided the QR step, which is
independent of those assets, does not itself throw), the produced document
contains no logo and no photo section, the rest of the layout is exactly
the document of the same payload without those references, and an empty
institution name renders as the literal heading placeholder
"Institution". -/
theorem spec_C7 (w : World) (p : Payload)
    (hl : p.logo_url = "" ∨ fetchBuffer w p.logo_url defaultTimeoutMs = none)
    (hi : p.image_url = "" ∨ fetchBuffer w p.image_url defaultTimeoutMs = none)
    (hq : p.verify_url = "" ∨ (w.qrEncode p.verify_url).isSome = true) :
    ∃ items, renderCertificatePDF w p = Except.ok items
      ∧ (∀ b, DocItem.logoImage b ∉ items)
      ∧ (∀ b, DocItem.studentPhoto b ∉ items)
      ∧ renderCertificatePDF w p
          = renderCertificatePDF w { p with logo_url := "", image_url := "" }
      ∧ (p.institution_name = "" →
          DocItem.institutionHeading "Institution" ∈ items) := by
  have hlogo : logoPart w p = Except.ok [] := by
    cases hl with
    | inl h => simp [logoPart, h]
    | inr h =>
      by_cases h0 : p.logo_url = ""
      · simp [logoPart, h0]
      · simp [logoPart, h0, h]
  have hphoto : photoPart w p = Except.ok [] := by
    cases hi with
    | inl h => simp [photoPart, h]
    | inr h =>
      by_cases h0 : p.image_url = ""
      · simp [photoPart, h0]
      · simp [photoPart, h0, h]
  have hlogo2 : logoPart w { p with logo_url := "", image_url := "" }
      = Except.ok [] := by simp [logoPart]
  have hphoto2 : photoPart w { p with logo_url := "", image_url := "" }
      = Except.ok [] := by simp [photoPart]
  have hqr2 : qrPart w { p with logo_url := "", image_url := "" }
      = qrPart w p := rfl
  obtain ⟨q, hqr, hq1, hq2⟩ : ∃ q, qrPart w p = Except.ok q
      ∧ (∀ b, DocItem.logoImage b ∉ q) ∧ (∀ b, DocItem.studentPhoto b ∉ q) := by
    by_cases hv : p.verify_url = ""
    · exact ⟨[], by simp [qrPart, hv], by simp, by simp⟩
    · cases hq with
      | inl h => exact absurd h hv
      | inr h =>
        obtain ⟨png, hpng⟩ := Option.isSome_iff_exists.mp h
        exact ⟨[DocItem.qrImage png, DocItem.qrCaption],
          by simp [qrPart, hv, hpng], by simp, by simp⟩
  refine ⟨docOf p [] [] q, ?_, ?_, ?_, ?_, ?_⟩
  · simp [renderCertificatePDF, hlogo, hphoto, hqr]
  · intro b
    simp only [docOf]
    split_ifs <;> simp [hq1 b]
  · intro b
    simp only [docOf]
    split_ifs <;> simp [hq2 b]
  · rw [renderCertificatePDF, renderCertificatePDF, hlogo, hphoto, hlogo2,
      hphoto2, hqr2]
    cases qrPart w p <;> rfl
  · intro h
    simp [docOf, jsOrStr, h]

theorem spec_C7_witness :
    renderCertificatePDF sampleWorld sampleP7
      = renderCertificatePDF sampleWorld
          { sampleP7 with logo_url := "", image_url := "" }
    ∧ isOkE (renderCertificatePDF sampleWorld sampleP7) = true
    ∧ (sampleP7.institution_name = "" ∧ sampleP7.logo_url = ""
        ∧ sampleP7.image_url = "") := by
  obtain ⟨items, h1, h2, h3, h4, h5⟩ :=
    spec_C7 sampleWorld sampleP7 (Or.inl rfl) (Or.inl rfl) (Or.inr (by decide))
  refine ⟨h4, ?_, by decide⟩
  rw [h1]
  rfl

/-- C2: for every requested code, a lookup miss (including the database
error result of `.single()`) yields the 404 not-found page — never a raw
database error or a 500 — and that page echoes the HTML-escaped trimmed
code; on a hit, each of the four text fields (full name, program,
certificate title, institution name) is inserted into the page through
`esc`, whose output carries no raw `& < > " '`. -/
theorem spec_C2 (env : VerifyEnv) (db : Db) (raw : String) :
    (lookupCert db (jsTrim raw) = none →
      verifyHandler env db raw
          = VerifyResponse.notFound (notFoundPieces (jsTrim raw))
        ∧ statusCode (verifyHandler env db raw) = 404
        ∧ Piece.dyn (esc (jsTrim raw)) ∈ notFoundPieces (jsTrim raw)
        ∧ escapedOk (esc (jsTrim raw)).data = true)
    ∧ (∀ c, lookupCert db (jsTrim raw) = some c →
        verifyHandler env db raw
            = VerifyResponse.found (foundPieces c (resolveDownload env c)
                (env.fmtDate c.created_at))
          ∧ Piece.dyn (esc c.full_name) ∈ foundPieces c
              (resolveDownload env c) (env.fmtDate c.created_at)
          ∧ Piece.dyn (esc (jsOrStr c.program "—")) ∈ foundPieces c
              (resolveDownload env c) (env.fmtDate c.created_at)
          ∧ (c.program ≠ "" → Piece.dyn (esc c.program) ∈ foundPieces c
              (resolveDownload env c) (env.fmtDate c.created_at))
          ∧ Piece.dyn (esc c.certificate) ∈ foundPieces c
              (resolveDownload env c) (env.fmtDate c.created_at)
          ∧ Piece.dyn (esc c.institution_name) ∈ foundPieces c
              (resolveDownload env c) (env.fmtDate c.created_at)
          ∧ escapedOk (esc c.full_name).data = true
          ∧ escapedOk (esc (jsOrStr c.program "—")).data = true
          ∧ escapedOk (esc c.certificate).data = true
          ∧ escapedOk (esc c.institution_name).data = true)
    ∧ statusCode (verifyHandler env db raw) ≠ 500 := by
  refine ⟨?_, ?_, ?_⟩
  · intro h
    have he := verifyHandler_notFound env db raw h
    refine ⟨he, ?_, mem_notFoundPieces_code (jsTrim raw), escapedOk_esc _⟩
    rw [he]
    rfl
  · intro c h
    exact ⟨verifyHandler_found env db raw c h,
      mem_foundPieces_fullname c _ _,
      mem_foundPieces_programDash c _ _,
      fun hp => mem_foundPieces_program c _ _ hp,
      mem_foundPieces_certificate c _ _,
      mem_foundPieces_institution c _ _,
      escapedOk_esc _, escapedOk_esc _, escapedOk_esc _, escapedOk_esc _⟩
  · cases h : verifyHandler env db raw <;> simp [statusCode]

theorem spec_C2_witness :
    verifyHandler sampleVerifyEnv sampleDb "  <script>alert(1)</script> "
        = VerifyResponse.notFound
            (notFoundPieces (jsTrim "  <script>alert(1)</script> "))
    ∧ escapedOk (esc (jsTrim "  <script>alert(1)</script> ")).data = true
    ∧ verifyHandler sampleVerifyEnv sampleDb sampleCert.certificate_id
        = VerifyResponse.found (foundPieces sampleCert
            (resolveDownload sampleVerifyEnv sampleCert)
            (sampleVerifyEnv.fmtDate sampleCert.created_at)) := by
  have h1 := (spec_C2 sampleVerifyEnv sampleDb
    "  <script>alert(1)</script> ").1 (by decide)
  have h2 := ((spec_C2 sampleVerifyEnv sampleDb
    sampleCert.certificate_id).2.1 sampleCert (by decide)).1
  exact ⟨h1.1, h1.2.2.2, h2⟩

/-- C9: the found page is built only from the record's display fields and
the resolved download URL — replacing `pdf_path` while keeping the same
resolved URL leaves the page identical, so `pdf_path` influences the page
only through that URL; when the stored public URL is present the resolver
never reads `pdf_path` at all; and when no URL resolves the download
action collapses to the fixed "PDF unavailable" literal, a section with no
interpolated value. -/
theorem spec_C9 :
    (∀ (c : Cert) (d : Option String) (i : String) (p2 : String),
      foundPieces { c with pdf_path := p2 } d i = foundPieces c d i)
    ∧ (∀ (env : VerifyEnv) (db : Db) (raw : String) (c : Cert),
        lookupCert db (jsTrim raw) = some c →
        verifyHandler env db raw
          = VerifyResponse.found (foundPieces c (resolveDownload env c)
              (env.fmtDate c.created_at)))
    ∧ downloadSection none = [Piece.lit pdfUnavailableLit]
    ∧ (∀ (env : VerifyEnv) (c : Cert) (p2 : String), jsOr c.pdf_url ≠ none →
        resolveDownload env { c with pdf_path := p2 } = resolveDownload env c)
    ∧ (∀ (env : VerifyEnv) (c : Cert) (p2 : String),
        resolveDownload env { c with pdf_path := p2 } = resolveDownload env c →
        foundPieces { c with pdf_path := p2 }
            (resolveDownload env { c with pdf_path := p2 })
            (env.fmtDate ({ c with pdf_path := p2 }).created_at)
          = foundPieces c (resolveDownload env c) (env.fmtDate c.created_at)) := by
  refine ⟨fun c d i p2 => rfl, verifyHandler_found, rfl, ?_, ?_⟩
  · intro env c p2 hne
    cases h : jsOr c.pdf_url with
    | none => exact absurd h hne
    | some u => simp [resolveDownload, h]
  · intro env c p2 hres
    rw [hres]
    rfl

theorem spec_C9_witness :
    verifyHandler sampleVerifyEnv sampleDb sampleCert.certificate_id
        = VerifyResponse.found (foundPieces sampleCert
            (resolveDownload sampleVerifyEnv sampleCert)
            (sampleVerifyEnv.fmtDate sampleCert.created_at))
    ∧ resolveDownload sampleVerifyEnv
        { sampleCert with pdf_path := "secret/other.pdf" }
        = resolveDownload sampleVerifyEnv sampleCert
    ∧ foundPieces { sampleCert with pdf_path := "secret/other.pdf" }
        (resolveDownload sampleVerifyEnv sampleCert)
        (sampleVerifyEnv.fmtDate sampleCert.created_at)
        = foundPieces sampleCert (resolveDownload sampleVerifyEnv sampleCert)
            (sampleVerifyEnv.fmtDate sampleCert.created_at) := by
  obtain ⟨h1, h2, h3, h4, h5⟩ := spec_C9
  exact ⟨h2 sampleVerifyEnv sampleDb sampleCert.certificate_id sampleCert
      (by decide),
    h4 sampleVerifyEnv sampleCert "secret/other.pdf" (by decide),
    h1 sampleCert (resolveDownload sampleVerifyEnv sampleCert)
      (sampleVerifyEnv.fmtDate sampleCert.created_at) "secret/other.pdf"⟩

/-- C10: the verify route trims the requested code before the lookup and
before echoing it, so a code surrounded by whitespace behaves exactly like
the trimmed code, and on a miss the page echoes the trimmed code. -/
theorem spec_C10 (env : VerifyEnv) (db : Db) (pre s post : String)
    (hpre : ∀ c ∈ pre.data, isWsChar c = true)
    (hpost : ∀ c ∈ post.data, isWsChar c = true) :
    verifyHandler env db (pre ++ s ++ post) = verifyHandler env db (jsTrim s)
    ∧ verifyHandler env db s = verifyHandler env db (jsTrim s)
    ∧ (lookupCert db (jsTrim s) = none →
        verifyHandler env db (pre ++ s ++ post)
          = VerifyResponse.notFound (notFoundPieces (jsTrim s))) := by
  have h1 : jsTrim (pre ++ s ++ post) = jsTrim s := jsTrim_wrap pre s post hpre hpost
  have h2 : jsTrim (jsTrim s) = jsTrim s := jsTrim_idem s
  have hA : verifyHandler env db (pre ++ s ++ post)
      = verifyHandler env db (jsTrim s) :=
    verifyHandler_trim_congr env db _ _ (h1.trans h2.symm)
  have hB : verifyHandler env db s = verifyHandler env db (jsTrim s) :=
    verifyHandler_trim_congr env db _ _ h2.symm
  refine ⟨hA, hB, ?_⟩
  intro hmiss
  rw [hA]
  have := verifyHandler_notFound env db (jsTrim s) (by rw [h2]; exact hmiss)
  rw [this, h2]

theorem spec_C10_witness :
    verifyHandler sampleVerifyEnv sampleDb "  nosuch-code \t"
        = verifyHandler sampleVerifyEnv sampleDb (jsTrim "nosuch-code")
    ∧ verifyHandler sampleVerifyEnv sampleDb "  nosuch-code \t"
        = VerifyResponse.notFound (notFoundPieces (jsTrim "nosuch-code")) := by
  have h := spec_C10 sampleVerifyEnv sampleDb "  " "nosuch-code" " \t"
    (by decide) (by decide)
  exact ⟨h.1, h.2.2 (by decide)⟩

/-- C1: when the four required columns are present in the first row, the
sheet has at least one data row, every row's render, upload and insert
succeed, and the UUID supply is collision-free over the batch, the
generate handler answers with a count equal to the number of data rows
and the record sequence in spreadsheet row order (row `i` yields record
`i`), and the returned records carry pairwise distinct certificate ids. -/
theorem spec_C1 (env : GenEnv) (instRaw logoRaw : String) (r0 : Row)
    (rest : List Row)
    (hinst : jsTrim instRaw ≠ "")
    (hcols : ∀ c ∈ requiredCols, rowHas r0 c = true)
    (hok : ∀ p ∈ (r0 :: rest).enum,
        rowOk env (jsTrim instRaw) (jsTrim logoRaw) p.1 p.2 = true)
    (hids : (((r0 :: rest).enum).map (fun p => env.uuids p.1)).Nodup) :
    generateHandler env instRaw logoRaw true (r0 :: rest)
      = (GenResult.ok (r0 :: rest).length
          (((r0 :: rest).enum).map fun p =>
            insertedCert env (jsTrim instRaw) (jsTrim logoRaw) p.1 p.2),
         ⟨((r0 :: rest).enum).map (fun p =>
             rowObjectPath env (jsTrim instRaw) (jsTrim logoRaw) p.1 p.2),
          ((r0 :: rest).enum).map fun p =>
            insertedCert env (jsTrim instRaw) (jsTrim logoRaw) p.1 p.2⟩)
    ∧ ((((r0 :: rest).enum).map fun p =>
          insertedCert env (jsTrim instRaw) (jsTrim logoRaw) p.1 p.2).map
        Cert.certificate_id).Nodup := by
  have hloop := processRows_success env (jsTrim instRaw) (jsTrim logoRaw)
    (r0 :: rest) 0 hok
  constructor
  · rw [generateHandler_loop env instRaw logoRaw r0 rest hinst hcols, hloop]
    simp [List.enum_cons]
  · have hcomp : ((((r0 :: rest).enum).map fun p =>
        insertedCert env (jsTrim instRaw) (jsTrim logoRaw) p.1 p.2).map
          Cert.certificate_id)
        = ((r0 :: rest).enum).map (fun p => env.uuids p.1) := by
      rw [List.map_map]
      rfl
    rw [hcomp]
    exact hids

theorem spec_C1_witness :
    (generateHandler sampleEnv " Inst " "" true [sampleRow1, sampleRow2]).1
      = GenResult.ok 2 (([sampleRow1, sampleRow2].enum).map fun p =>
          insertedCert sampleEnv (jsTrim " Inst ") (jsTrim "") p.1 p.2)
    ∧ ((([sampleRow1, sampleRow2].enum).map fun p =>
          insertedCert sampleEnv (jsTrim " Inst ") (jsTrim "") p.1 p.2).map
        Cert.certificate_id).Nodup := by
  obtain ⟨h1, h2⟩ := spec_C1 sampleEnv " Inst " "" sampleRow1 [sampleRow2]
    (by decide) (by decide) (by decide) (by decide)
  refine ⟨?_, h2⟩
  rw [h1]
  rfl

/-- C4: a sheet with zero data rows, or one whose first row misses any of
the literal headers "Full Name", "Program", "Certificate", "CGPA", makes
the generate handler fail with a 400 validation error and empty effect
trace — no artifact rendered or stored, no metadata written; when the
other request validations pass the exact messages are "No rows in Excel"
and the joined missing-columns message. -/
theorem spec_C4 (env : GenEnv) (instRaw logoRaw : String)
    (filePresent : Bool) (rows : List Row) :
    (rows = [] → ∃ m, generateHandler env instRaw logoRaw filePresent rows
        = (GenResult.badRequest m, ⟨[], []⟩))
    ∧ (∀ r0 rest c, rows = r0 :: rest → c ∈ requiredCols →
        rowHas r0 c = false →
        ∃ m, generateHandler env instRaw logoRaw filePresent rows
          = (GenResult.badRequest m, ⟨[], []⟩))
    ∧ (jsTrim instRaw ≠ "" → filePresent = true → rows = [] →
        generateHandler env instRaw logoRaw filePresent rows
          = (GenResult.badRequest "No rows in Excel", ⟨[], []⟩))
    ∧ (∀ r0 rest c, jsTrim instRaw ≠ "" → filePresent = true →
        rows = r0 :: rest → c ∈ requiredCols → rowHas r0 c = false →
        generateHandler env instRaw logoRaw filePresent rows
          = (GenResult.badRequest missingColsMsg, ⟨[], []⟩)) := by
  refine ⟨?_, ?_, ?_, ?_⟩
  · intro h
    subst h
    by_cases h1 : jsTrim instRaw = ""
    · exact ⟨"institution_name is required", by simp [generateHandler, h1]⟩
    by_cases h2 : filePresent
    · exact ⟨"No rows in Excel", by simp [generateHandler, h1, h2]⟩
    · exact ⟨"Excel file (file) is required", by simp [generateHandler, h1, h2]⟩
  · intro r0 rest c hrows hc hcf
    subst hrows
    by_cases h1 : jsTrim instRaw = ""
    · exact ⟨"institution_name is required", by simp [generateHandler, h1]⟩
    by_cases h2 : filePresent
    · have hall : requiredCols.all (fun c2 => rowHas r0 c2) = false := by
        rw [List.all_eq_false]
        exact ⟨c, hc, by simp [hcf]⟩
      exact ⟨missingColsMsg, by simp [generateHandler, h1, h2, hall]⟩
    · exact ⟨"Excel file (file) is required", by simp [generateHandler, h1, h2]⟩
  · intro h1 h2 h3
    subst h3
    simp [generateHandler, h1, h2]
  · intro r0 rest c h1 h2 hrows hc hcf
    subst hrows
    have hall : requiredCols.all (fun c2 => rowHas r0 c2) = false := by
      rw [List.all_eq_false]
      exact ⟨c, hc, by simp [hcf]⟩
    simp [generateHandler, h1, h2, hall]

theorem spec_C4_witness :
    generateHandler sampleEnv "Inst" "" true ([] : List Row)
        = (GenResult.badRequest "No rows in Excel", ⟨[], []⟩)
    ∧ generateHandler sampleEnv "Inst" "" true [noCgpaRow]
        = (GenResult.badRequest missingColsMsg, ⟨[], []⟩) := by
  refine ⟨?_, ?_⟩
  · exact (spec_C4 sampleEnv "Inst" "" true []).2.2.1 (by decide) rfl rfl
  · exact (spec_C4 sampleEnv "Inst" "" true [noCgpaRow]).2.2.2 noCgpaRow []
      "CGPA" (by decide) rfl rfl (by decide) (by decide)

/-- C3: when the rows before `rk` all process successfully and `rk` is the
first row to fail (render, upload, or metadata insert), the batch answers
with the single 500 "Generation failed" carrying no partial-success
payload; the loop stops at `rk`, so nothing from the rows after it is
rendered, uploaded or inserted; and the metadata records committed for the
preceding rows remain exactly in the insert trace (no compensating
rollback), with at most the failing row's own upload additionally
committed (when its insert was the step that failed). -/
theorem spec_C3 (env : GenEnv) (instRaw logoRaw : String)
    (pre : List Row) (rk : Row) (post : List Row)
    (hinst : jsTrim instRaw ≠ "")
    (hcols : ∀ c ∈ requiredCols,
        rowHas ((pre ++ rk :: post).headD []) c = true)
    (hpre : ∀ p ∈ pre.enum,
        rowOk env (jsTrim instRaw) (jsTrim logoRaw) p.1 p.2 = true)
    (hfail : rowOk env (jsTrim instRaw) (jsTrim logoRaw) pre.length rk
        = false) :
    generateHandler env instRaw logoRaw true (pre ++ rk :: post)
      = (GenResult.serverError "Generation failed",
         ⟨(pre.enum).map (fun p =>
             rowObjectPath env (jsTrim instRaw) (jsTrim logoRaw) p.1 p.2)
            ++ (if isOkE (renderCertificatePDF env.world
                    (rowPayload env (jsTrim instRaw) (jsTrim logoRaw)
                      pre.length rk))
                  && !env.uploadFails pre.length
                then [rowObjectPath env (jsTrim instRaw) (jsTrim logoRaw)
                        pre.length rk]
                else []),
          (pre.enum).map fun p =>
            insertedCert env (jsTrim instRaw) (jsTrim logoRaw) p.1 p.2⟩) := by
  have hloop := processRows_failure env (jsTrim instRaw) (jsTrim logoRaw)
    pre rk post 0 hpre (by simpa using hfail)
  cases pre with
  | nil =>
    rw [List.nil_append] at hloop ⊢
    have hcols2 : ∀ c ∈ requiredCols, rowHas rk c = true := by
      simpa using hcols
    rw [generateHandler_loop env instRaw logoRaw rk post hinst hcols2, hloop]
    simp
  | cons p0 pre2 =>
    rw [List.cons_append] at hloop ⊢
    have hcols2 : ∀ c ∈ requiredCols, rowHas p0 c = true := by
      simpa using hcols
    rw [generateHandler_loop env instRaw logoRaw p0 (pre2 ++ rk :: post)
      hinst hcols2, hloop]
    simp [List.enum_cons]

theorem spec_C3_witness :
    generateHandler sampleEnvInsertFail " Inst " "" true [sampleRow1, sampleRow2]
      = (GenResult.serverError "Generation failed",
         ⟨[rowObjectPath sampleEnvInsertFail (jsTrim " Inst ") (jsTrim "") 0 sampleRow1,
           rowObjectPath sampleEnvInsertFail (jsTrim " Inst ") (jsTrim "") 1 sampleRow2],
          [insertedCert sampleEnvInsertFail (jsTrim " Inst ") (jsTrim "") 0 sampleRow1]⟩) := by
  have h := spec_C3 sampleEnvInsertFail " Inst " "" [sampleRow1] sampleRow2 []
    (by decide) (by decide) (by decide) (by decide)
  exact h.trans (by decide)

/-- C8 counterexample: a row whose "Full Name" cell is present but empty
is not rejected — the batch succeeds, a metadata record with an empty
`full_name` is committed, and the storage path uses the "recipient"
placeholder.  So a missing full name is not reported as a validation
error before any side effect. -/
theorem spec_C8_cex :
    (generateHandler sampleEnv "Inst" "" true [emptyNameRow]).1
      = GenResult.ok 1 [insertedCert sampleEnv "Inst" "" 0 emptyNameRow]
    ∧ (generateHandler sampleEnv "Inst" "" true [emptyNameRow]).2.inserts
      = [insertedCert sampleEnv "Inst" "" 0 emptyNameRow]
    ∧ (insertedCert sampleEnv "Inst" "" 0 emptyNameRow).full_name = ""
    ∧ (insertedCert sampleEnv "Inst" "" 0 emptyNameRow).pdf_path
      = "certificates/uuid-0/recipient.pdf" := by
  decide

/-- C8 (amended): the required field at ingestion is the batch-level
institution name — empty after trimming is rejected with a 400 before any
side effect; the per-row fields fullName, program, certificateTitle and
cgpa are not validated: rows whose values are empty strings (the columns
being present) are processed like any other rows and do not fail the row
or the batch, the empty full name flowing into the record unchanged. -/
theorem spec_C8 (env : GenEnv) (instRaw logoRaw : String)
    (filePresent : Bool) (rows : List Row) (r0 : Row) (rest : List Row) :
    (jsTrim instRaw = "" →
      generateHandler env instRaw logoRaw filePresent rows
        = (GenResult.badRequest "institution_name is required", ⟨[], []⟩))
    ∧ (jsTrim instRaw ≠ "" →
       (∀ c ∈ requiredCols, rowHas r0 c = true) →
       (∀ p ∈ (r0 :: rest).enum,
          rowOk env (jsTrim instRaw) (jsTrim logoRaw) p.1 p.2 = true) →
       generateHandler env instRaw logoRaw true (r0 :: rest)
         = (GenResult.ok (r0 :: rest).length
             (((r0 :: rest).enum).map fun p =>
               insertedCert env (jsTrim instRaw) (jsTrim logoRaw) p.1 p.2),
            ⟨((r0 :: rest).enum).map (fun p =>
                rowObjectPath env (jsTrim instRaw) (jsTrim logoRaw) p.1 p.2),
             ((r0 :: rest).enum).map fun p =>
               insertedCert env (jsTrim instRaw) (jsTrim logoRaw) p.1 p.2⟩)
       ∧ (((r0 :: rest).enum).map fun p =>
            (insertedCert env (jsTrim instRaw) (jsTrim logoRaw) p.1 p.2).full_name)
           = ((r0 :: rest).enum).map fun p => jsTrim (rowGet p.2 "Full Name")) := by
  constructor
  · intro h
    simp [generateHandler, h]
  · intro hinst hcols hok
    constructor
    · rw [generateHandler_loop env instRaw logoRaw r0 rest hinst hcols,
        processRows_success env (jsTrim instRaw) (jsTrim logoRaw)
          (r0 :: rest) 0 hok]
      simp [List.enum_cons]
    · rfl

theorem spec_C8_witness :
    generateHandler sampleEnv "   " "" true [emptyNameRow]
        = (GenResult.badRequest "institution_name is required", ⟨[], []⟩)
    ∧ generateHandler sampleEnv "Inst" "" true [emptyNameRow]
        = (GenResult.ok 1 [insertedCert sampleEnv (jsTrim "Inst") (jsTrim "") 0 emptyNameRow],
           ⟨[rowObjectPath sampleEnv (jsTrim "Inst") (jsTrim "") 0 emptyNameRow],
            [insertedCert sampleEnv (jsTrim "Inst") (jsTrim "") 0 emptyNameRow]⟩) := by
  have h := spec_C8 sampleEnv "   " "" true [emptyNameRow] emptyNameRow []
  have h2 := (spec_C8 sampleEnv "Inst" "" true [emptyNameRow] emptyNameRow []).2
    (by decide) (by decide) (by decide)
  exact ⟨h.1 (by decide), h2.1.trans (by decide)⟩

/-- C5: every record a successful generate run returns has a `verify_url`
equal to the configured public base joined with the verification path
segment containing its `certificate_id`; and verifying that
`certificate_id` against any store holding the record (the id, a UUID,
being trim-invariant) yields the found page, which shows exactly the
stored full name, program (the em-dash placeholder standing in only for an
empty program) and certificate code, each through `esc`. -/
theorem spec_C5 (env : GenEnv) (instRaw logoRaw : String) (rows : List Row)
    (n : Nat) (items : List Cert) (eff : Effects) (r : Cert)
    (hgen : generateHandler env instRaw logoRaw true rows
        = (GenResult.ok n items, eff))
    (hr : r ∈ items) :
    r.verify_url
      = env.publicBase ++ "/certificates/verify/" ++ r.certificate_id
    ∧ ∀ (venv : VerifyEnv) (db : Db),
        jsTrim r.certificate_id = r.certificate_id →
        lookupCert db r.certificate_id = some r →
        verifyHandler venv db r.certificate_id
            = VerifyResponse.found (foundPieces r (resolveDownload venv r)
                (venv.fmtDate r.created_at))
        ∧ Piece.dyn (esc r.full_name) ∈ foundPieces r
            (resolveDownload venv r) (venv.fmtDate r.created_at)
        ∧ Piece.dyn (esc r.certificate_id) ∈ foundPieces r
            (resolveDownload venv r) (venv.fmtDate r.created_at)
        ∧ Piece.dyn (esc (jsOrStr r.program "—")) ∈ foundPieces r
            (resolveDownload venv r) (venv.fmtDate r.created_at)
        ∧ (r.program ≠ "" → Piece.dyn (esc r.program) ∈ foundPieces r
            (resolveDownload venv r) (venv.fmtDate r.created_at)) := by
  have hitems := generateHandler_ok_inv env instRaw logoRaw true rows n
    items eff hgen
  rw [hitems] at hr
  obtain ⟨p, hp, hpr⟩ := List.mem_map.mp hr
  constructor
  · rw [← hpr]
    rfl
  · intro venv db hid hlook
    refine ⟨verifyHandler_found venv db r.certificate_id r ?_,
      mem_foundPieces_fullname r _ _, mem_foundPieces_certId r _ _,
      mem_foundPieces_programDash r _ _,
      fun hp2 => mem_foundPieces_program r _ _ hp2⟩
    rw [hid]
    exact hlook

theorem spec_C5_witness :
    sampleCert.verify_url
      = sampleEnv.publicBase ++ "/certificates/verify/"
          ++ sampleCert.certificate_id
    ∧ verifyHandler sampleVerifyEnv sampleDb sampleCert.certificate_id
        = VerifyResponse.found (foundPieces sampleCert
            (resolveDownload sampleVerifyEnv sampleCert)
            (sampleVerifyEnv.fmtDate sampleCert.created_at))
    ∧ Piece.dyn (esc sampleCert.full_name)
        ∈ foundPieces sampleCert (resolveDownload sampleVerifyEnv sampleCert)
            (sampleVerifyEnv.fmtDate sampleCert.created_at)
    ∧ Piece.dyn (esc sampleCert.certificate_id)
        ∈ foundPieces sampleCert (resolveDownload sampleVerifyEnv sampleCert)
            (sampleVerifyEnv.fmtDate sampleCert.created_at) := by
  have h := spec_C5 sampleEnv "Inst" "" [sampleRow1] 1
    [insertedCert sampleEnv (jsTrim "Inst") (jsTrim "") 0 sampleRow1]
    ⟨[rowObjectPath sampleEnv (jsTrim "Inst") (jsTrim "") 0 sampleRow1],
     [insertedCert sampleEnv (jsTrim "Inst") (jsTrim "") 0 sampleRow1]⟩
    sampleCert (by decide) (by decide)
  have h2 := h.2 sampleVerifyEnv sampleDb (by decide) (by decide)
  exact ⟨h.1, h2.1, h2.2.1, h2.2.2.1⟩
